import Mathlib

/-!
Shallow embedding of the M5Stack BLE/RSA sketch (`src/main.cpp`) and proofs
about its connection lifecycle, inbound-message handling, RSA key loading and
DRBG usage.

The embedding follows the source file: the global mutable variables become the
fields of `M5.SysState`, each callback / function of the sketch becomes a Lean
function returning the updated state together with the list of externally
observable actions it performs (display events, characteristic writes,
notifies, advertising restarts, serial logs).  Machine integers kept as `Nat`,
with an explicit `% 2 ^ 32` where the `uint32_t` wraparound matters
(`connectionCount`).
-/

set_option autoImplicit false

namespace M5

/-- Externally observable outputs of the sketch, at the boundaries the spec
names: `messageReceived` is the Presentation event emitted by
`displayMessage` (the message bytes together with the `messageCount` shown
next to them), `ackWrite` is `pCharacteristic->setValue`, `notifyAct` is
`pCharacteristic->notify()`, `startAdvAct` is `BLEDevice::startAdvertising()`,
`statusDraw` covers the other screen drawing, `serialLog` the serial output,
and `decryptCall` would mark an invocation of `decryptRSA`. -/
inductive Action where
  | messageReceived (bytes : List Nat) (count : Nat)
  | ackWrite (text : String)
  | notifyAct
  | startAdvAct
  | statusDraw (text : String)
  | serialLog (text : String)
  | decryptCall (ciphertext : List Nat)
  deriving DecidableEq, Repr

/-- State of the `mbedtls_ctr_drbg_context` global, abstracted to what the
claims need: how many times it has been seeded and how many random requests
it has served. -/
structure CtrDrbg where
  seedCount : Nat
  reqCount : Nat
  deriving DecidableEq, Repr

/-- `mbedtls_ctr_drbg_init`. -/
def ctrDrbgInit : CtrDrbg := ⟨0, 0⟩

/-- `mbedtls_ctr_drbg_seed`: one seeding of the generator. -/
def ctrDrbgSeed (g : CtrDrbg) : CtrDrbg := { g with seedCount := g.seedCount + 1 }

/-- `mbedtls_ctr_drbg_random`: one random request; never re-seeds. -/
def ctrDrbgRandom (g : CtrDrbg) : CtrDrbg := { g with reqCount := g.reqCount + 1 }

/-- Resource ledger for one run of `initRSA`: whether the key file was opened
and closed, and whether the transient key buffer was `malloc`ed and `free`d. -/
structure Ledger where
  fileOpened : Bool
  fileClosed : Bool
  bufAllocated : Bool
  bufFreed : Bool
  deriving DecidableEq, Repr

/-- Outcomes of the environment during boot, i.e. of the calls `initRSA` and
`setup` make into the filesystem and mbedtls: does `LittleFS` mount, does
seeding succeed, does `/private.pem` open, its size, does `malloc` succeed,
does `mbedtls_pk_parse_key` succeed; `t0` is `millis()` at the end of
`setup`. -/
structure BootEnv where
  fsMounts : Bool
  seedOk : Bool
  fileOpens : Bool
  fileSize : Nat
  mallocOk : Bool
  parseOk : Bool
  t0 : Nat
  deriving DecidableEq, Repr

/-- Shallow embedding of `initRSA` (src/main.cpp lines 117-160).  Seeds the
DRBG once, then opens `/private.pem`, allocates a transient buffer, reads the
blob, closes the file, parses the key and frees the buffer; every early
return in the source is a branch here, and the `Ledger` records which
acquire/release calls ran on that path. -/
def initRSA (env : BootEnv) : Bool × CtrDrbg × Ledger :=
  let g := ctrDrbgSeed ctrDrbgInit
  if env.seedOk = false then
    (false, g, ⟨false, false, false, false⟩)
  else if env.fileOpens = false then
    (false, g, ⟨false, false, false, false⟩)
  else if env.mallocOk = false then
    (false, g, ⟨true, true, false, false⟩)
  else if env.parseOk = false then
    (false, g, ⟨true, true, true, true⟩)
  else
    (true, g, ⟨true, true, true, true⟩)

/-- Shallow embedding of `decryptRSA` (src/main.cpp lines 163-181).  The
mbedtls decryption primitive itself is the external `oracle`
(`some plaintext` on success, `none` on a padding/format failure); what the
sketch adds is the `rsaInitialized` guard and the use of
`mbedtls_ctr_drbg_random` with the global generator for blinding. -/
def decryptRSA (rsaInit : Bool) (oracle : List Nat → Option (List Nat))
    (g : CtrDrbg) (ciphertext : List Nat) : Bool × Option (List Nat) × CtrDrbg :=
  if rsaInit = false then
    (false, none, g)
  else
    let g1 := ctrDrbgRandom g
    match oracle ciphertext with
    | some pt => (true, some pt, g1)
    | none => (false, none, g1)

/-- The global mutable state of the sketch (src/main.cpp lines 14-34), plus
`advertising`, the state of the external BLE stack's advertiser, which the
sketch drives through `BLEDevice::startAdvertising()`. -/
structure SysState where
  isConnected : Bool
  connectionCount : Nat
  lastState : Bool
  rsaInitialized : Bool
  lastMessage : List Nat
  messageCount : Nat
  messageDisplayed : Bool
  startTime : Nat
  lastUpdate : Nat
  lastGC : Nat
  advertising : Bool
  deriving DecidableEq, Repr

/-- Shallow embedding of `displayMessage` (src/main.cpp lines 88-114): draws
the message screen showing the current `messageCount` and the message bytes
(the `messageReceived` Presentation event), records `lastMessage` and sets
`messageDisplayed`. -/
def displayMessage (s : SysState) (message : List Nat) : SysState × List Action :=
  ({ s with lastMessage := message, messageDisplayed := true },
   [Action.messageReceived message s.messageCount])

/-- Shallow embedding of `MyCharacteristicCallbacks::onWrite` (src/main.cpp
lines 184-219).  A non-empty payload is logged, `messageCount` is
incremented, the raw bytes are passed to `displayMessage`, the fixed
acknowledgement is written to the characteristic and a notify is sent; an
empty payload is only logged.  The source never calls `decryptRSA` here. -/
def onWrite (s : SysState) (value : List Nat) : SysState × List Action :=
  if 0 < value.length then
    let s1 := { s with messageCount := s.messageCount + 1 }
    let p := displayMessage s1 value
    (p.1,
      Action.serialLog "DATA RECEIVED" :: p.2 ++
        [Action.ackWrite "Received!", Action.notifyAct,
         Action.serialLog "Displayed on screen and sent response"])
  else
    (s, [Action.serialLog "DATA RECEIVED", Action.serialLog "Empty data received"])

/-- Shallow embedding of `MyServerCallbacks::onConnect` (src/main.cpp lines
38-44): sets `isConnected`, increments `connectionCount` (a `uint32_t`). -/
def onConnect (s : SysState) : SysState × List Action :=
  ({ s with isConnected := true,
            connectionCount := (s.connectionCount + 1) % 2 ^ 32 },
   [Action.serialLog "Device connected"])

/-- `BLEDevice::startAdvertising()`: asks the external stack to advertise;
idempotent, so modelled as setting the stack's `advertising` flag. -/
def startAdvertising (s : SysState) : SysState × List Action :=
  ({ s with advertising := true }, [Action.startAdvAct])

/-- Shallow embedding of `MyServerCallbacks::onDisconnect` (src/main.cpp
lines 46-56): clears `isConnected`, decrements `connectionCount` (`uint32_t`
wraparound made explicit), and immediately calls
`BLEDevice::startAdvertising()` inside the handler. -/
def onDisconnect (s : SysState) : SysState × List Action :=
  let s1 := { s with isConnected := false,
                     connectionCount := (s.connectionCount + (2 ^ 32 - 1)) % 2 ^ 32 }
  let p := startAdvertising s1
  (p.1,
    Action.serialLog "Device disconnected" :: p.2 ++
      [Action.serialLog "Restarted advertising"])

/-- Shallow embedding of `loop` (src/main.cpp lines 348-405); `currentTime`
is the value `millis()` returns this iteration.  Three blocks, as in the
source: redraw on a connection-state change, the 5-second elapsed-time
display while waiting, and the 10-second heap log.  No block touches the
characteristic or calls `notify`. -/
def loop (s : SysState) (currentTime : Nat) : SysState × List Action :=
  let s1 := if s.isConnected ≠ s.lastState then
              { s with messageDisplayed := false, lastState := s.isConnected }
            else s
  let a1 : List Action :=
    if s.isConnected ≠ s.lastState then
      if s.isConnected then
        [Action.statusDraw "Connected - waiting for encrypted data",
         Action.statusDraw (if s.rsaInitialized then "RSA: Ready" else "RSA: Disabled")]
      else
        [Action.statusDraw "Waiting...",
         Action.statusDraw (if s.rsaInitialized then "RSA: Enabled" else "RSA: Disabled")] ++
          (if 0 < s.messageCount then [Action.statusDraw "Messages"] else [])
    else []
  let s2 := if s1.messageDisplayed = false ∧ 5000 ≤ currentTime - s1.lastUpdate then
              { s1 with lastUpdate := currentTime }
            else s1
  let a2 : List Action :=
    if s1.messageDisplayed = false ∧ 5000 ≤ currentTime - s1.lastUpdate ∧
        s1.isConnected = false then
      [Action.statusDraw "Time"]
    else []
  let s3 := if 10000 ≤ currentTime - s2.lastGC then { s2 with lastGC := currentTime } else s2
  let a3 : List Action :=
    if 10000 ≤ currentTime - s2.lastGC then [Action.serialLog "Free heap"] else []
  (s3, a1 ++ a2 ++ a3)

/-- Shallow embedding of `setup` (src/main.cpp lines 221-346) at the level of
state: globals start at their initializers, `rsaInitialized` is decided once
from the filesystem mount and `initRSA`, the timestamps are set to
`millis()`, and `BLEDevice::startAdvertising()` leaves the stack
advertising. -/
def setup (env : BootEnv) : SysState :=
  { isConnected := false
    connectionCount := 0
    lastState := false
    rsaInitialized := if env.fsMounts then (initRSA env).1 else false
    lastMessage := []
    messageCount := 0
    messageDisplayed := false
    startTime := env.t0
    lastUpdate := env.t0
    lastGC := env.t0
    advertising := true }

/-- Events delivered to the sketch by the BLE stack and the Arduino runtime:
a peer connect, a peer disconnect, an inbound characteristic write, and one
iteration of `loop` at a given `millis()` value. -/
inductive Ev where
  | connect
  | disconnect
  | inboundWrite (payload : List Nat)
  | loopTick (t : Nat)
  deriving DecidableEq, Repr

/-- One reactive step.  Modelled from the spec: the link boundary is the
external BLE stack, which establishes the connection (ceasing to advertise)
before it delivers the connect event to `MyServerCallbacks::onConnect`; the
other three events run the embedded source handlers directly. -/
def step (s : SysState) : Ev → SysState × List Action
  | Ev.connect => onConnect { s with advertising := false }
  | Ev.disconnect => onDisconnect s
  | Ev.inboundWrite v => onWrite s v
  | Ev.loopTick t => loop s t

/-- Modelled from the spec: which events the external link can deliver in a
state — a peer can connect only while the peripheral is advertising and not
already connected, and a disconnect is only delivered for an existing
connection.  Writes and loop iterations are always possible. -/
def evGuard (s : SysState) : Ev → Bool
  | Ev.connect => !s.isConnected && s.advertising
  | Ev.disconnect => s.isConnected
  | Ev.inboundWrite _ => true
  | Ev.loopTick _ => true

/-- An event trace each of whose events the link could deliver in the state
it arrives in. -/
def okTrace (s : SysState) : List Ev → Bool
  | [] => true
  | e :: rest => evGuard s e && okTrace (step s e).1 rest

/-- Run a trace of events, accumulating all observable actions in order. -/
def run (s : SysState) : List Ev → SysState × List Action
  | [] => (s, [])
  | e :: rest =>
    ((run (step s e).1 rest).1, (step s e).2 ++ (run (step s e).1 rest).2)

/-- The state after running a trace. -/
def runState (s : SysState) (evs : List Ev) : SysState := (run s evs).1

/-- A boot environment in which everything succeeds (a valid key is present
and parses). -/
def envAllOk : BootEnv := ⟨true, true, true, 1190, true, true, 0⟩

/-- A boot environment in which the filesystem fails to mount, so the key is
never loaded. -/
def envNoFs : BootEnv := ⟨false, true, true, 0, true, true, 0⟩

/-- Number of `notify()` invocations in a list of actions. -/
def countNotify : List Action → Nat
  | [] => 0
  | Action.notifyAct :: rest => countNotify rest + 1
  | _ :: rest => countNotify rest

/-- Number of connect events in a trace. -/
def countConnects : List Ev → Nat
  | [] => 0
  | Ev.connect :: rest => countConnects rest + 1
  | _ :: rest => countConnects rest

/-- Number of disconnect events in a trace. -/
def countDisconnects : List Ev → Nat
  | [] => 0
  | Ev.disconnect :: rest => countDisconnects rest + 1
  | _ :: rest => countDisconnects rest

/-- Number of non-empty inbound writes in a trace. -/
def countNEWrites : List Ev → Nat
  | [] => 0
  | Ev.inboundWrite v :: rest => (if 0 < v.length then 1 else 0) + countNEWrites rest
  | _ :: rest => countNEWrites rest

/-- The counts shown alongside received messages, in order: the `count`
argument of each `messageReceived` Presentation event in an action list. -/
def shownCounts : List Action → List Nat
  | [] => []
  | Action.messageReceived _ c :: rest => c :: shownCounts rest
  | _ :: rest => shownCounts rest

/-! ## Helper lemmas -/

theorem onWrite_fst (s : SysState) (v : List Nat) :
    (onWrite s v).1 =
      if 0 < v.length then
        { s with messageCount := s.messageCount + 1, lastMessage := v,
                 messageDisplayed := true }
      else s := by
  unfold onWrite displayMessage
  split <;> rfl

theorem onConnect_fst (s : SysState) :
    (onConnect s).1 =
      { s with isConnected := true,
               connectionCount := (s.connectionCount + 1) % 2 ^ 32 } := rfl

theorem onDisconnect_fst (s : SysState) :
    (onDisconnect s).1 =
      { s with isConnected := false,
               connectionCount := (s.connectionCount + (2 ^ 32 - 1)) % 2 ^ 32,
               advertising := true } := rfl

theorem loop_fst_preserves (s : SysState) (t : Nat) :
    (loop s t).1.isConnected = s.isConnected ∧
    (loop s t).1.connectionCount = s.connectionCount ∧
    (loop s t).1.advertising = s.advertising ∧
    (loop s t).1.rsaInitialized = s.rsaInitialized ∧
    (loop s t).1.messageCount = s.messageCount := by
  simp only [loop]
  repeat' split
  all_goals simp

theorem loop_act_mem (s : SysState) (t : Nat) (a : Action)
    (ha : a ∈ (loop s t).2) :
    (∃ m, a = Action.statusDraw m) ∨ ∃ m, a = Action.serialLog m := by
  simp only [loop, List.mem_append] at ha
  repeat' split at ha
  all_goals aesop

theorem shownCounts_append (a b : List Action) :
    shownCounts (a ++ b) = shownCounts a ++ shownCounts b := by
  induction a with
  | nil => rfl
  | cons x rest ih => cases x <;> simp [shownCounts, ih]

theorem countNotify_append (a b : List Action) :
    countNotify (a ++ b) = countNotify a + countNotify b := by
  induction a with
  | nil => simp [countNotify]
  | cons x rest ih => cases x <;> simp [countNotify, ih, Nat.add_right_comm]

theorem shownCounts_eq_nil (l : List Action)
    (h : ∀ a ∈ l, (∃ m, a = Action.statusDraw m) ∨ ∃ m, a = Action.serialLog m) :
    shownCounts l = [] := by
  induction l with
  | nil => rfl
  | cons x rest ih =>
    rcases h x (by simp) with ⟨m, hm⟩ | ⟨m, hm⟩ <;>
      subst hm <;> exact ih fun a ha => h a (by simp [ha])

theorem countNotify_eq_zero (l : List Action)
    (h : ∀ a ∈ l, (∃ m, a = Action.statusDraw m) ∨ ∃ m, a = Action.serialLog m) :
    countNotify l = 0 := by
  induction l with
  | nil => rfl
  | cons x rest ih =>
    rcases h x (by simp) with ⟨m, hm⟩ | ⟨m, hm⟩ <;>
      subst hm <;> exact ih fun a ha => h a (by simp [ha])

theorem onWrite_fst_preserves (s : SysState) (v : List Nat) :
    (onWrite s v).1.isConnected = s.isConnected ∧
    (onWrite s v).1.connectionCount = s.connectionCount ∧
    (onWrite s v).1.advertising = s.advertising ∧
    (onWrite s v).1.rsaInitialized = s.rsaInitialized := by
  rw [onWrite_fst]
  split <;> simp

theorem onWrite_fst_messageCount (s : SysState) (v : List Nat) :
    (onWrite s v).1.messageCount =
      s.messageCount + (if 0 < v.length then 1 else 0) := by
  rw [onWrite_fst]
  split <;> simp [*]

theorem runState_cons (s : SysState) (e : Ev) (rest : List Ev) :
    runState s (e :: rest) = runState (step s e).1 rest := rfl

theorem run_acts_cons (s : SysState) (e : Ev) (rest : List Ev) :
    (run s (e :: rest)).2 = (step s e).2 ++ (run (step s e).1 rest).2 := rfl

theorem step_rsaInitialized (s : SysState) (e : Ev) :
    (step s e).1.rsaInitialized = s.rsaInitialized := by
  cases e with
  | connect => rfl
  | disconnect => rfl
  | inboundWrite v => exact (onWrite_fst_preserves s v).2.2.2
  | loopTick t => exact (loop_fst_preserves s t).2.2.2.1

theorem run_rsaInitialized (evs : List Ev) :
    ∀ s : SysState, (runState s evs).rsaInitialized = s.rsaInitialized := by
  induction evs with
  | nil => intro s; rfl
  | cons e rest ih =>
    intro s
    rw [runState_cons, ih, step_rsaInitialized]

theorem okTrace_run_inv (evs : List Ev) :
    ∀ s : SysState, okTrace s evs = true →
      (s.isConnected = true → s.advertising = false) →
      ((runState s evs).isConnected = true →
        (runState s evs).advertising = false) := by
  induction evs with
  | nil => intro s _ h; simpa [runState, run] using h
  | cons e rest ih =>
    intro s hok hinv
    rw [okTrace, Bool.and_eq_true] at hok
    rw [runState_cons]
    refine ih _ hok.2 ?_
    cases e with
    | connect => simp [step, onConnect]
    | disconnect => simp [step, onDisconnect_fst]
    | inboundWrite v =>
      have h := onWrite_fst_preserves s v
      intro hc
      rw [step] at hc ⊢
      rw [h.2.2.1]
      exact hinv (h.1 ▸ hc)
    | loopTick t =>
      have h := loop_fst_preserves s t
      intro hc
      rw [step] at hc ⊢
      rw [h.2.2.1]
      exact hinv (h.1 ▸ hc)

theorem okTrace_connectionCount (evs : List Ev) :
    ∀ s : SysState,
      okTrace s evs = true →
      s.connectionCount = (if s.isConnected then 1 else 0) →
      (runState s evs).connectionCount =
          (if (runState s evs).isConnected then 1 else 0) ∧
        countDisconnects evs + (runState s evs).connectionCount =
          s.connectionCount + countConnects evs := by
  induction evs with
  | nil =>
    intro s _ hcc
    simp [runState, run, countConnects, countDisconnects, hcc]
  | cons e rest ih =>
    intro s hok hcc
    rw [okTrace, Bool.and_eq_true] at hok
    rw [runState_cons]
    cases e with
    | connect =>
      have hnc : s.isConnected = false := by
        have := hok.1
        simp [evGuard] at this
        exact this.1
      have hcc0 : s.connectionCount = 0 := by rw [hcc, hnc]; rfl
      have hstep : (step s Ev.connect).1.connectionCount = 1 := by
        simp [step, onConnect, hcc0]
      have hstepc : (step s Ev.connect).1.isConnected = true := by
        simp [step, onConnect]
      have h := ih (step s Ev.connect).1 hok.2 (by rw [hstep, hstepc]; rfl)
      refine ⟨h.1, ?_⟩
      simp only [countConnects, countDisconnects]
      omega
    | disconnect =>
      have hc : s.isConnected = true := by
        have := hok.1
        simpa [evGuard] using this
      have hcc1 : s.connectionCount = 1 := by rw [hcc, hc]; rfl
      have hstep : (step s Ev.disconnect).1.connectionCount = 0 := by
        simp [step, onDisconnect_fst, hcc1]
      have hstepc : (step s Ev.disconnect).1.isConnected = false := by
        simp [step, onDisconnect_fst]
      have h := ih (step s Ev.disconnect).1 hok.2 (by rw [hstep, hstepc]; rfl)
      refine ⟨h.1, ?_⟩
      simp only [countConnects, countDisconnects]
      omega
    | inboundWrite v =>
      have hp := onWrite_fst_preserves s v
      have hpc : (step s (Ev.inboundWrite v)).1.connectionCount =
          s.connectionCount := hp.2.1
      have hpi : (step s (Ev.inboundWrite v)).1.isConnected =
          s.isConnected := hp.1
      have h := ih (step s (Ev.inboundWrite v)).1 hok.2
        (by rw [hpc, hpi]; exact hcc)
      refine ⟨h.1, ?_⟩
      have h2 := h.2
      rw [hpc] at h2
      simp only [countConnects, countDisconnects]
      omega
    | loopTick t =>
      have hp := loop_fst_preserves s t
      have hpc : (step s (Ev.loopTick t)).1.connectionCount =
          s.connectionCount := hp.2.1
      have hpi : (step s (Ev.loopTick t)).1.isConnected =
          s.isConnected := hp.1
      have h := ih (step s (Ev.loopTick t)).1 hok.2
        (by rw [hpc, hpi]; exact hcc)
      refine ⟨h.1, ?_⟩
      have h2 := h.2
      rw [hpc] at h2
      simp only [countConnects, countDisconnects]
      omega

theorem run_messageCount_shownCounts (evs : List Ev) :
    ∀ s : SysState,
      (runState s evs).messageCount = s.messageCount + countNEWrites evs ∧
      shownCounts (run s evs).2 =
        List.range' (s.messageCount + 1) (countNEWrites evs) := by
  induction evs with
  | nil =>
    intro s
    simp [runState, run, countNEWrites, shownCounts]
  | cons e rest ih =>
    intro s
    rw [runState_cons, run_acts_cons, shownCounts_append]
    cases e with
    | connect =>
      have h1 : (step s Ev.connect).1.messageCount = s.messageCount := rfl
      have h2 : shownCounts (step s Ev.connect).2 = [] := rfl
      have h := ih (step s Ev.connect).1
      rw [h1] at h
      simpa [countNEWrites, h2] using h
    | disconnect =>
      have h1 : (step s Ev.disconnect).1.messageCount = s.messageCount := rfl
      have h2 : shownCounts (step s Ev.disconnect).2 = [] := rfl
      have h := ih (step s Ev.disconnect).1
      rw [h1] at h
      simpa [countNEWrites, h2] using h
    | loopTick t =>
      have h1 : (step s (Ev.loopTick t)).1.messageCount = s.messageCount :=
        (loop_fst_preserves s t).2.2.2.2
      have h2 : shownCounts (step s (Ev.loopTick t)).2 = [] :=
        shownCounts_eq_nil _ (loop_act_mem s t)
      have h := ih (step s (Ev.loopTick t)).1
      rw [h1] at h
      simpa [countNEWrites, h2] using h
    | inboundWrite v =>
      by_cases hv : 0 < v.length
      · have h1 : (step s (Ev.inboundWrite v)).1.messageCount =
            s.messageCount + 1 := by
          show (onWrite s v).1.messageCount = _
          rw [onWrite_fst_messageCount, if_pos hv]
        have h2 : shownCounts (step s (Ev.inboundWrite v)).2 =
            [s.messageCount + 1] := by
          show shownCounts (onWrite s v).2 = _
          simp [onWrite, displayMessage, hv, shownCounts]
        have h := ih (step s (Ev.inboundWrite v)).1
        rw [h1] at h
        refine ⟨by simp [countNEWrites, hv, h.1]; omega, ?_⟩
        rw [h2, h.2]
        simp only [countNEWrites, if_pos hv]
        rw [Nat.add_comm 1 (countNEWrites rest), List.range'_succ]
        simp [Nat.add_assoc, Nat.add_comm]
      · have h1 : (step s (Ev.inboundWrite v)).1.messageCount =
            s.messageCount := by
          show (onWrite s v).1.messageCount = _
          rw [onWrite_fst_messageCount, if_neg hv]
          omega
        have h2 : shownCounts (step s (Ev.inboundWrite v)).2 = [] := by
          show shownCounts (onWrite s v).2 = _
          simp [onWrite, hv, shownCounts]
        have h := ih (step s (Ev.inboundWrite v)).1
        rw [h1] at h
        refine ⟨?_, ?_⟩
        · rw [h.1]
          simp [countNEWrites, hv]
        · rw [h2, h.2]
          simp [countNEWrites, hv]

/-! ## Claim theorems -/

/-- Claim C4: on every peer-disconnect event the handler itself re-arms
advertising before it returns — `onDisconnect` clears the connected flag,
actually invokes `BLEDevice::startAdvertising()` (the `startAdvAct` action is
emitted from inside the handler, not merely a flag set), and leaves the stack
advertising, so the device is advertising again within the same reactive
step. -/
theorem c4_disconnect_rearms_advertising (s : SysState) :
    (onDisconnect s).1.advertising = true ∧
    (onDisconnect s).1.isConnected = false ∧
    Action.startAdvAct ∈ (onDisconnect s).2 := by
  refine ⟨rfl, rfl, ?_⟩
  simp [onDisconnect, startAdvertising]

/-- Claim C6: an empty inbound payload leaves the state completely unchanged
(no message count change, no other field modified) and produces only serial
log output — no Presentation event, no acknowledgement write, no notify. -/
theorem c6_empty_write_only_logged (s : SysState) :
    (onWrite s []).1 = s ∧
    (onWrite s []).2 =
      [Action.serialLog "DATA RECEIVED", Action.serialLog "Empty data received"] := by
  constructor <;> rfl

/-- Claim C9: on every path of `initRSA`, the transient key buffer is freed
exactly when it was successfully allocated, and the key file is closed
exactly when it was opened — whether seeding, open, allocation or key parsing
succeed or fail. -/
theorem c9_initRSA_releases_resources (env : BootEnv) :
    (initRSA env).2.2.bufFreed = (initRSA env).2.2.bufAllocated ∧
    (initRSA env).2.2.fileClosed = (initRSA env).2.2.fileOpened := by
  unfold initRSA
  repeat' split
  all_goals simp

/-- Claim C8: the CTR-DRBG is seeded exactly once, during `initRSA` at
startup (`seedCount = 1` on every path), a single `decryptRSA` call never
changes `seedCount` whatever the guard, the oracle outcome or the generator
state, and any sequence of decrypt calls starting from the generator produced
at startup leaves it with `seedCount = 1`. -/
theorem c8_drbg_seeded_once_never_reseeded (env : BootEnv)
    (oracle : List Nat → Option (List Nat)) (cts : List (List Nat)) :
    (initRSA env).2.1.seedCount = 1 ∧
    (∀ (b : Bool) (g : CtrDrbg) (ct : List Nat),
      (decryptRSA b oracle g ct).2.2.seedCount = g.seedCount) ∧
    (cts.foldl (fun g ct => (decryptRSA true oracle g ct).2.2)
        (initRSA env).2.1).seedCount = 1 := by
  have hseed : (initRSA env).2.1.seedCount = 1 := by
    unfold initRSA
    repeat' split
    all_goals rfl
  have hdec : ∀ (b : Bool) (g : CtrDrbg) (ct : List Nat),
      (decryptRSA b oracle g ct).2.2.seedCount = g.seedCount := by
    intro b g ct
    unfold decryptRSA ctrDrbgRandom
    repeat' split
    all_goals rfl
  refine ⟨hseed, hdec, ?_⟩
  have hfold : ∀ (l : List (List Nat)) (g : CtrDrbg),
      (l.foldl (fun g ct => (decryptRSA true oracle g ct).2.2) g).seedCount =
        g.seedCount := by
    intro l
    induction l with
    | nil => intro g; rfl
    | cons ct rest ih =>
      intro g
      simpa [List.foldl_cons, hdec] using ih (decryptRSA true oracle g ct).2.2
  rw [hfold, hseed]

/-- Claim C1 (code-bug evidence): even after a boot in which the key loads
successfully (`rsaInitialized = true`), a non-empty inbound payload is
presented to Presentation as its raw bytes — the ciphertext itself, with the
incremented count — and `onWrite` performs no `decryptRSA` invocation at all
(no `decryptCall` action of any ciphertext appears among its actions). -/
theorem c1_raw_bytes_displayed_no_decrypt :
    (setup envAllOk).rsaInitialized = true ∧
    Action.messageReceived [1, 2, 3] 1 ∈ (onWrite (setup envAllOk) [1, 2, 3]).2 ∧
    ∀ ct : List Nat,
      Action.decryptCall ct ∉ (onWrite (setup envAllOk) [1, 2, 3]).2 := by
  refine ⟨by decide, ?_, ?_⟩
  · simp [onWrite, displayMessage, setup, envAllOk]
  · intro ct
    simp [onWrite, displayMessage]

/-- Claim C2 counterexample: the Scenario-D run — connect, then three loop
iterations at 2000 ms intervals while connected, then disconnect — produces
zero `notify()` invocations, not the three the claim requires. -/
theorem c2_counterexample_no_periodic_notify :
    countNotify (run (setup envAllOk)
      [Ev.connect, Ev.loopTick 2000, Ev.loopTick 4000, Ev.loopTick 6000,
       Ev.disconnect]).2 = 0 ∧ (0 : Nat) ≠ 3 := by
  constructor
  · decide
  · decide

/-- Claim C2 (amended): the `loop` function performs no periodic
notifications at all — every iteration, from any state and at any time,
emits zero `notify()` invocations — and in particular the connect, three
2000 ms intervals, disconnect run yields zero notifies (`notify` is invoked
only from the inbound-write handler). -/
theorem c2_loop_never_notifies :
    (∀ (s : SysState) (t : Nat), countNotify (loop s t).2 = 0) ∧
    countNotify (run (setup envAllOk)
      [Ev.connect, Ev.loopTick 2000, Ev.loopTick 4000, Ev.loopTick 6000,
       Ev.disconnect]).2 = 0 := by
  constructor
  · intro s t
    exact countNotify_eq_zero _ (loop_act_mem s t)
  · decide

/-- Claim C3 counterexample: after one connect followed by one disconnect
(one successful connect in total), `connectionCount` is `0`, not `1` —
`onDisconnect` decrements the counter, so it does not equal the total number
of successful connects. -/
theorem c3_counterexample_disconnect_decrements :
    countConnects [Ev.connect, Ev.disconnect] = 1 ∧
    (runState (setup envAllOk) [Ev.connect, Ev.disconnect]).connectionCount = 0 ∧
    (0 : Nat) ≠ 1 := by
  refine ⟨by decide, by decide, by decide⟩

/-- Claim C3 (amended): the per-connection counter is incremented exactly
once on each peer-connect event and decremented exactly once on each
peer-disconnect event (it is a live-connection count used for diagnostics),
so after any interleaving of connect and disconnect events the link can
deliver, its value equals the number of connects minus the number of
disconnects. -/
theorem c3_connectionCount_connects_minus_disconnects (env : BootEnv)
    (evs : List Ev) (h : okTrace (setup env) evs = true) :
    countDisconnects evs + (runState (setup env) evs).connectionCount =
      countConnects evs := by
  have hinv : (setup env).connectionCount =
      (if (setup env).isConnected = true then 1 else 0) := by simp [setup]
  have h2 := (okTrace_connectionCount evs (setup env) h hinv).2
  simpa [setup] using h2

/-- Witness for the amended C3: on the concrete valid trace connect,
disconnect, connect the counter ends at `1 = 2 - 1`. -/
theorem c3_connectionCount_witness :
    okTrace (setup envAllOk) [Ev.connect, Ev.disconnect, Ev.connect] = true ∧
    countDisconnects [Ev.connect, Ev.disconnect, Ev.connect] +
        (runState (setup envAllOk)
          [Ev.connect, Ev.disconnect, Ev.connect]).connectionCount =
      countConnects [Ev.connect, Ev.disconnect, Ev.connect] :=
  ⟨by decide,
   c3_connectionCount_connects_minus_disconnects envAllOk
     [Ev.connect, Ev.disconnect, Ev.connect] (by decide)⟩

/-- Claim C5: when key loading fails at startup (here: the filesystem never
mounts, or `initRSA` fails for any reason), `rsaInitialized` is false, stays
false after any further trace of events (the mode is decided once, at
startup), and every non-empty inbound payload is presented to Presentation
as its raw bytes with the incremented count, the fixed acknowledgement
`Received!` is written back, and a notify is triggered. -/
theorem c5_plaintext_passthrough_permanent (env : BootEnv) (evs : List Ev)
    (v : List Nat) (hfail : env.fsMounts = false ∨ (initRSA env).1 = false)
    (hv : 0 < v.length) :
    (setup env).rsaInitialized = false ∧
    (runState (setup env) evs).rsaInitialized = false ∧
    Action.messageReceived v ((runState (setup env) evs).messageCount + 1) ∈
      (onWrite (runState (setup env) evs) v).2 ∧
    Action.ackWrite "Received!" ∈ (onWrite (runState (setup env) evs) v).2 ∧
    Action.notifyAct ∈ (onWrite (runState (setup env) evs) v).2 := by
  have h0 : (setup env).rsaInitialized = false := by
    rcases hfail with h | h <;> simp [setup, h]
  refine ⟨h0, by rw [run_rsaInitialized]; exact h0, ?_, ?_, ?_⟩ <;>
    simp [onWrite, displayMessage, hv]

/-- Witness for C5: boot without a mounted filesystem, run one loop
iteration, then receive the two-byte payload `[104, 105]`. -/
theorem c5_plaintext_passthrough_witness :
    (envNoFs.fsMounts = false ∨ (initRSA envNoFs).1 = false) ∧
    0 < ([104, 105] : List Nat).length ∧
    ((setup envNoFs).rsaInitialized = false ∧
     (runState (setup envNoFs) [Ev.loopTick 200]).rsaInitialized = false ∧
     Action.messageReceived [104, 105]
         ((runState (setup envNoFs) [Ev.loopTick 200]).messageCount + 1) ∈
       (onWrite (runState (setup envNoFs) [Ev.loopTick 200]) [104, 105]).2 ∧
     Action.ackWrite "Received!" ∈
       (onWrite (runState (setup envNoFs) [Ev.loopTick 200]) [104, 105]).2 ∧
     Action.notifyAct ∈
       (onWrite (runState (setup envNoFs) [Ev.loopTick 200]) [104, 105]).2) :=
  ⟨Or.inl rfl, by decide,
   c5_plaintext_passthrough_permanent envNoFs [Ev.loopTick 200] [104, 105]
     (Or.inl rfl) (by decide)⟩

/-- Claim C7: for every state reachable from the post-`setup` state under an
interleaving of events the link can deliver, being connected implies not
advertising — the stack ceases advertising when a peer connects, and the
handlers only restart advertising after the connected flag is cleared. -/
theorem c7_connected_implies_not_advertising (env : BootEnv) (evs : List Ev)
    (h : okTrace (setup env) evs = true) :
    (runState (setup env) evs).isConnected = true →
    (runState (setup env) evs).advertising = false := by
  refine okTrace_run_inv evs (setup env) h ?_
  intro hc
  simp [setup] at hc

/-- Witness for C7: after the valid trace consisting of one connect, the
device is connected and indeed not advertising. -/
theorem c7_connected_witness :
    okTrace (setup envAllOk) [Ev.connect] = true ∧
    ((runState (setup envAllOk) [Ev.connect]).isConnected = true →
      (runState (setup envAllOk) [Ev.connect]).advertising = false) :=
  ⟨by decide,
   c7_connected_implies_not_advertising envAllOk [Ev.connect] (by decide)⟩

/-- Claim C10: starting from `setup`, after any trace of events the message
count equals the number of non-empty inbound writes processed (connects,
disconnects, loop iterations and empty writes leave it unchanged), and the
counts shown alongside the received messages are exactly `1, 2, ..., n` —
each display shows the total number of non-empty writes processed so far. -/
theorem c10_messageCount_counts_nonempty_writes (env : BootEnv)
    (evs : List Ev) :
    (runState (setup env) evs).messageCount = countNEWrites evs ∧
    shownCounts (run (setup env) evs).2 =
      List.range' 1 (countNEWrites evs) := by
  have h := run_messageCount_shownCounts evs (setup env)
  have hmc : (setup env).messageCount = 0 := rfl
  rw [hmc] at h
  simpa using h

end M5
